import Mathlib

/-!
Verification development for the osrm-backend shared-memory dataset publisher
(`src/storage/storage.cpp`) and the reader-side unpacking cache
(`include/engine/unpacking_cache.hpp`).

The C++ sources are shallowly embedded: pure control flow becomes Lean
functions, machine integers become `Nat`/`Int` with explicit `% 2 ^ 64`
where wraparound matters, exceptions become `Except`, and effects on the
shared-region register and shared-memory segments become explicit state
passing plus an event trace.

Components of the repository that are only declared (not defined) in the
given sources — the `SharedRegionRegister`, `SharedMemory`, `DataLayout`
primitives and the third-party LRU cache — are modelled from the spec, as
marked in the corresponding doc comments.
-/

namespace Osrm

/-! ## Unpacking cache (include/engine/unpacking_cache.hpp) -/

/-- A cache key `(source NodeID, target NodeID, ExcludeIndex, Timestamp)`,
mirroring `std::tuple<NodeID, NodeID, ExcludeIndex, Timestamp>`. The C++
component types are `uint32`, `uint32`, `uint8`, `uint32`; `KeyInRange`
states those bounds. -/
abbrev CacheKey := Nat × Nat × Nat × Nat

/-- The component bounds imposed by the C++ types of the cache key:
`NodeID = std::uint32_t`, `ExcludeIndex = unsigned char`,
`Timestamp = unsigned`. -/
def KeyInRange (k : CacheKey) : Prop :=
  k.1 < 2 ^ 32 ∧ k.2.1 < 2 ^ 32 ∧ k.2.2.1 < 2 ^ 8 ∧ k.2.2.2 < 2 ^ 32

/-- Modelled from the spec: `boost::hash_combine` is external to this
repository; it is modelled as the classic Boost combine step
`seed ^= v + 0x9e3779b9 + (seed << 6) + (seed >> 2)` on 64-bit words, with
wraparound made explicit by `% 2 ^ 64`. Every fact proved below about the
hash uses only that it is a fixed total function into `[0, 2 ^ 64)`. -/
def hashCombine (seed v : Nat) : Nat :=
  (seed ^^^ ((v + 0x9e3779b9 + seed * 64 + seed / 4) % 2 ^ 64)) % 2 ^ 64

/-- `HashKey::operator()` from `unpacking_cache.hpp`: combines the
`std::hash` of the four components (identity on unsigned integral values)
into one `std::size_t` seed, starting from `seed = 0`. -/
def HashKey (k : CacheKey) : Nat :=
  hashCombine (hashCombine (hashCombine (hashCombine 0 k.1) k.2.1) k.2.2.1) k.2.2.2


/-- `EdgeDuration` is `std::int32_t`; modelled from the spec: the sentinel
`MAXIMAL_EDGE_DURATION` is the maximal `int32` value. -/
def MAXIMAL_EDGE_DURATION : Int := 2147483647

/-- Modelled from the spec: the third-party
`boost::compute::detail::lru_cache` is a bounded LRU map. Entries are kept
most-recent-first; `insert` is a no-op when the key is already present and
evicts the least recently used entry when the cache is full. -/
structure LruCache where
  capacity : Nat
  entries : List (Nat × Int)
deriving DecidableEq, Repr

def LruCache.hasKey (c : LruCache) (k : Nat) : Bool :=
  c.entries.any (fun p => p.1 == k)

def LruCache.get (c : LruCache) (k : Nat) : Option Int :=
  (c.entries.find? (fun p => p.1 == k)).map (fun p => p.2)

def LruCache.insert (c : LruCache) (k : Nat) (v : Int) : LruCache :=
  if c.hasKey k then c
  else
    { c with
      entries :=
        (k, v) :: (if c.capacity ≤ c.entries.length then c.entries.dropLast else c.entries) }

/-- `UnpackingCache` from `unpacking_cache.hpp`: the LRU cache is keyed by
the `std::size_t` hash `HashKey{}(edge)`, not by the key tuple itself. The
`boost::shared_mutex` guarding concurrent access is not modelled (single
client). -/
structure UnpackingCache where
  m_cache : LruCache
deriving DecidableEq, Repr

/-- The default-constructed cache: `UnpackingCache() : m_cache(40329846)`. -/
def initialUnpackingCache : UnpackingCache :=
  { m_cache := { capacity := 40329846, entries := [] } }

/-- `UnpackingCache::IsEdgeInCache`. -/
def UnpackingCache.IsEdgeInCache (c : UnpackingCache) (edge : CacheKey) : Bool :=
  c.m_cache.hasKey (HashKey edge)

/-- `UnpackingCache::AddEdge`. -/
def UnpackingCache.AddEdge (c : UnpackingCache) (edge : CacheKey) (duration : Int) :
    UnpackingCache :=
  { m_cache := c.m_cache.insert (HashKey edge) duration }

/-- `UnpackingCache::GetDuration`: on a miss returns the sentinel
`MAXIMAL_EDGE_DURATION`. -/
def UnpackingCache.GetDuration (c : UnpackingCache) (edge : CacheKey) : Int :=
  (c.m_cache.get (HashKey edge)).getD MAXIMAL_EDGE_DURATION


/-- One observable OS-level action of the publisher, in program order. -/
inductive Event where
  | reserveKey : Nat → Event
  | shmRemove : Nat → Event
  | allocateSegment : Nat → Event
  | registerEntry : String → Nat → Event
  | updateEntry : String → Nat → Event
  | notifyAll : Event
  | waitForDetach : Nat → Event
  | releaseKey : Nat → Event
deriving DecidableEq, Repr

/-- Modelled from the spec: a `SharedRegionEntry` is
`(name, shm_key, timestamp)` with a monotonically increasing per-entry
version counter. -/
structure SharedRegionEntry where
  name : String
  shm_key : Nat
  timestamp : Nat
deriving DecidableEq, Repr

/-- Modelled from the spec: capacity of the key pool (`MAX_KEYS`, e.g. 128);
keys are 8-bit integers. -/
def MAX_SHM_KEYS : Nat := 128

/-- Modelled from the spec: the `SharedRegionRegister` maps dataset names to
keyed entries and owns a free-key allocator over `[0, MAX_SHM_KEYS)`.
`regions` is the table of live entries (indexed by region id) and
`used_keys` the set of reserved keys. `INVALID_REGION_ID` is modelled by
`Option`: `Find` returns `none` for "not registered". -/
structure SharedRegionRegister where
  regions : List SharedRegionEntry
  used_keys : List Nat
deriving DecidableEq, Repr

/-- Modelled from the spec: allocate the smallest unused key; fails
(`KeysExhausted`) when all `MAX_SHM_KEYS` keys are reserved. -/
def SharedRegionRegister.ReserveKey (reg : SharedRegionRegister) :
    Option (Nat × SharedRegionRegister) :=
  match (List.range MAX_SHM_KEYS).find? (fun k => !(reg.used_keys.contains k)) with
  | none => none
  | some k => some (k, { reg with used_keys := k :: reg.used_keys })

/-- Modelled from the spec: return a key to the free pool. -/
def SharedRegionRegister.ReleaseKey (reg : SharedRegionRegister) (k : Nat) :
    SharedRegionRegister :=
  { reg with used_keys := reg.used_keys.erase k }

/-- Modelled from the spec: name lookup; `none` models `INVALID_REGION_ID`. -/
def SharedRegionRegister.Find (reg : SharedRegionRegister) (name : String) : Option Nat :=
  reg.regions.findIdx? (fun e => e.name == name)

/-- Modelled from the spec: `Register(name, key)` creates a new entry with
`timestamp = 0` and returns its region id. -/
def SharedRegionRegister.Register (reg : SharedRegionRegister) (name : String) (key : Nat) :
    Nat × SharedRegionRegister :=
  (reg.regions.length,
   { reg with regions := reg.regions ++ [{ name := name, shm_key := key, timestamp := 0 }] })

/-- A named block of a region: element count and byte size, as read from the
archive (`Block{number_of_elements, entry.size}` in `readBlocks`). -/
structure Block where
  num_entries : Nat
  byte_size : Nat
deriving DecidableEq, Repr

/-- Modelled from the spec: a `DataLayout` is an ordered mapping from block
name to block; `SetBlock` is an upsert that keeps the first-set order. -/
structure DataLayout where
  blocks : List (String × Block)
deriving DecidableEq, Repr

def emptyLayout : DataLayout := { blocks := [] }

def DataLayout.SetBlock (l : DataLayout) (name : String) (b : Block) : DataLayout :=
  if l.blocks.any (fun p => p.1 == name) then
    { blocks := l.blocks.map (fun p => if p.1 == name then (name, b) else p) }
  else
    { blocks := l.blocks ++ [(name, b)] }

/-- One entry of a verified tar archive as enumerated by
`tar::FileReader::List`, together with the element count that
`ReadElementCount64` returns for it. -/
structure ArtifactEntry where
  name : String
  size : Nat
  element_count : Nat
deriving DecidableEq, Repr

def charsStartWith : List Char → List Char → Bool
  | [], _ => true
  | _ :: _, [] => false
  | p :: ps, c :: cs => p == c && charsStartWith ps cs

/-- `charsContain pat s` decides whether `pat` occurs as a contiguous
substring of `s` — the condition `s.rfind(pat) != std::string::npos`. -/
def charsContain (pat : List Char) : List Char → Bool
  | [] => charsStartWith pat []
  | c :: cs => charsStartWith pat (c :: cs) || charsContain pat cs

/-- The exclusion test actually performed by `readBlocks`:
`entry.name.rfind(".meta") == std::string::npos` fails exactly when
`".meta"` occurs anywhere in the name. -/
def nameHasMetaSub (s : String) : Bool :=
  charsContain ".meta".toList s.toList

/-- The exclusion test the spec describes: the name ends with `".meta"`. -/
def nameEndsWithMeta (s : String) : Bool :=
  List.isSuffixOf ".meta".toList s.toList

/-- `readBlocks` from `storage.cpp`: every listed entry whose name does not
contain `".meta"` (the code's `rfind` test) is upserted into the layout
with its element count and byte size. -/
def readBlocks (entries : List ArtifactEntry) (layout : DataLayout) : DataLayout :=
  entries.foldl
    (fun l e =>
      if nameHasMetaSub e.name then l
      else l.SetBlock e.name { num_entries := e.element_count, byte_size := e.size })
    layout

/-- The publish failure kinds reachable in the embedded fragment. -/
inductive StorageError where
  | missingRequired : String → StorageError
  | checksumMismatch : StorageError
  | keysExhausted : StorageError
deriving DecidableEq, Repr

/-- The configuration facts `Storage::Run` consults: which artifact paths
exist, what each archive lists, the length of the absolute
`.osrm.fileIndex` path, and the connectivity checksums the artifact readers
would produce from the `edges`, `hsgr` and `mldgr` artifacts. -/
structure StorageConfig where
  pathExists : String → Bool
  archive : String → List ArtifactEntry
  fileIndexPathLen : Nat
  edgesChecksum : Nat
  hsgrChecksum : Nat
  mldgrChecksum : Nat

/-- The `tar_files` table of `Storage::PopulateStaticLayout`, in source
order, with its REQUIRED (`true`) / OPTIONAL (`false`) classification. -/
def staticTarFiles : List (Bool × String) :=
  [(false, ".osrm.cells"), (false, ".osrm.partition"), (true, ".osrm.icd"),
   (true, ".osrm.properties"), (true, ".osrm.nbg_nodes"), (true, ".osrm.ebg_nodes"),
   (true, ".osrm.tls"), (true, ".osrm.tld"), (true, ".osrm.maneuver_overrides"),
   (true, ".osrm.edges"), (true, ".osrm.names"), (true, ".osrm.ramIndex")]

/-- The `tar_files` table of `Storage::PopulateUpdatableLayout`, in source
order. -/
def updatableTarFiles : List (Bool × String) :=
  [(false, ".osrm.mldgr"), (false, ".osrm.cell_metrics"), (false, ".osrm.hsgr"),
   (true, ".osrm.datasource_names"), (true, ".osrm.geometry"),
   (true, ".osrm.turn_weight_penalties"), (true, ".osrm.turn_duration_penalties")]

/-- The shared loop of both layout planners: existing files contribute their
blocks via `readBlocks`; a missing REQUIRED file raises
`MissingRequired`; a missing OPTIONAL file contributes nothing. -/
def layoutFromFiles (cfg : StorageConfig) :
    List (Bool × String) → DataLayout → Except StorageError DataLayout
  | [], l => .ok l
  | (required, suffix) :: rest, l =>
    if cfg.pathExists suffix then layoutFromFiles cfg rest (readBlocks (cfg.archive suffix) l)
    else if required then .error (.missingRequired suffix)
    else layoutFromFiles cfg rest l

namespace Storage

/-- `Storage::PopulateStaticLayout`: first the
`/common/rtree/file_index_path` char block (`make_block<char>(len + 1)`),
then the static artifact table. -/
def PopulateStaticLayout (cfg : StorageConfig) : Except StorageError DataLayout :=
  layoutFromFiles cfg staticTarFiles
    (emptyLayout.SetBlock "/common/rtree/file_index_path"
      { num_entries := cfg.fileIndexPathLen + 1, byte_size := cfg.fileIndexPathLen + 1 })

/-- `Storage::PopulateUpdatableLayout`: the updatable artifact table only. -/
def PopulateUpdatableLayout (cfg : StorageConfig) : Except StorageError DataLayout :=
  layoutFromFiles cfg updatableTarFiles emptyLayout

/-- The abort control flow of `Storage::PopulateStaticData`. The byte
copies into the region views are not modelled; what is modelled is the
cross-artifact check the function performs: the connectivity checksum read
from `.osrm.edges` must equal the one embedded in `.osrm.hsgr` (checked
first, if that artifact exists) and the one embedded in `.osrm.mldgr`
(checked later, if it exists); a mismatch throws before returning. -/
def PopulateStaticDataChecks (cfg : StorageConfig) : Except StorageError Unit :=
  if cfg.pathExists ".osrm.hsgr" && !(cfg.hsgrChecksum == cfg.edgesChecksum) then
    .error .checksumMismatch
  else if cfg.pathExists ".osrm.mldgr" && !(cfg.mldgrChecksum == cfg.edgesChecksum) then
    .error .checksumMismatch
  else .ok ()

end Storage

/-- The handle `setupRegion` returns: the reserved key of the freshly
allocated segment (the memory pointer is not modelled). -/
structure RegionHandle where
  shm_key : Nat
deriving DecidableEq, Repr

/-- The mutable state the publisher acts on: the shared-region register,
the set of keys at which a stale shared-memory segment is still live
(leftovers of a crash; segments created by this run are tracked through
their handles, not here), a counter of `SharedMemory::Remove` attempts, and
the event trace. -/
structure World where
  register : SharedRegionRegister
  staleLive : List Nat
  removeAttempts : Nat
  events : List Event
deriving DecidableEq, Repr

/-- Environment facts outside the program's control: whether the n-th
`SharedMemory::Remove` call succeeds in destroying the segment, and whether
the monitor's `timed_lock` is acquired before the deadline. -/
structure ShmEnv where
  removeOk : Nat → Bool
  timedLockOk : Bool

/-- `setupRegion` from `storage.cpp`: reserve a key; if a stale segment is
unexpectedly still live at that key, call `SharedMemory::Remove` on it
once; then allocate the new segment and return its handle. -/
def setupRegion (env : ShmEnv) (w : World) : Except StorageError (World × RegionHandle) :=
  match w.register.ReserveKey with
  | none => .error .keysExhausted
  | some (key, reg1) =>
    let w1 : World :=
      { w with register := reg1, events := w.events ++ [Event.reserveKey key] }
    let w2 : World :=
      if w1.staleLive.contains key then
        { w1 with
          staleLive := if env.removeOk w1.removeAttempts then w1.staleLive.erase key
                       else w1.staleLive,
          removeAttempts := w1.removeAttempts + 1,
          events := w1.events ++ [Event.shmRemove key] }
      else w1
    .ok ({ w2 with events := w2.events ++ [Event.allocateSegment key] },
         { shm_key := key })

/-- The per-handle loop inside `swapData`'s critical section: unknown names
are registered (`Register`, `timestamp = 0`); known names have their entry
re-pointed to the new key and the timestamp incremented, while the old key
is pushed onto `old_handles`. Returns the updated register, the retired
keys in iteration order, and the events. -/
def swapLoop (reg : SharedRegionRegister) :
    List (String × Nat) → SharedRegionRegister × List Nat × List Event
  | [] => (reg, [], [])
  | (name, key) :: rest =>
    match reg.Find name with
    | none =>
      let reg1 := (reg.Register name key).2
      let (r, olds, evs) := swapLoop reg1 rest
      (r, olds, Event.registerEntry name key :: evs)
    | some rid =>
      match reg.regions.get? rid with
      | none =>
        let (r, olds, evs) := swapLoop reg rest
        (r, olds, evs)
      | some e =>
        let reg1 : SharedRegionRegister :=
          { reg with
            regions := reg.regions.set rid
              { e with shm_key := key, timestamp := e.timestamp + 1 } }
        let (r, olds, evs) := swapLoop reg1 rest
        (r, e.shm_key :: olds, Event.updateEntry name key :: evs)

structure SwapResult where
  register : SharedRegionRegister
  success : Bool
  events : List Event
deriving DecidableEq, Repr

/-- `swapData` from `storage.cpp`. With `max_wait >= 0` the monitor mutex
is taken with `timed_lock`; on timeout every newly allocated segment gets a
`SharedMemory::Remove` call and the function returns `false` — the register
is not touched (in particular no `ReleaseKey`). Otherwise the critical
section runs `swapLoop`, clients are notified, and every retired old handle
is removed, waited for, and only then has its key released. -/
def swapData (timedLockOk : Bool) (maxWait : Int) (reg : SharedRegionRegister)
    (handles : List (String × Nat)) : SwapResult :=
  if 0 ≤ maxWait ∧ timedLockOk = false then
    { register := reg, success := false,
      events := handles.map (fun p => Event.shmRemove p.2) }
  else
    let (reg1, olds, evs) := swapLoop reg handles
    let retireEvs := (olds.map
      (fun k => [Event.shmRemove k, Event.waitForDetach k, Event.releaseKey k])).flatten
    let reg2 := olds.foldl SharedRegionRegister.ReleaseKey reg1
    { register := reg2, success := true,
      events := evs ++ [Event.notifyAll] ++ retireEvs }

/-- The outputs of a completed (non-throwing) `Storage::Run`. -/
structure RunOutput where
  exitCode : Nat
  swapSuccess : Bool
  static_layout : DataLayout
  updatable_layout : DataLayout
deriving DecidableEq, Repr

instance {ε α : Type} [DecidableEq ε] [DecidableEq α] : DecidableEq (Except ε α) := fun a b =>
  match a, b with
  | .ok x, .ok y => if h : x = y then .isTrue (by subst h; rfl) else .isFalse (by simp [h])
  | .ok _, .error _ => .isFalse (by simp)
  | .error _, .ok _ => .isFalse (by simp)
  | .error x, .error y => if h : x = y then .isTrue (by subst h; rfl) else .isFalse (by simp [h])

structure RunResult where
  world : World
  outcome : Except StorageError RunOutput
deriving DecidableEq, Repr

namespace Storage

/-- `Storage::Run` from `storage.cpp` (the writer file lock and `mlockall`
are not modelled; both are outside the claims). Note the source's shape:
the updatable region's layout is produced by `PopulateStaticLayout`
(line 234) and its payload by `PopulateStaticData` (line 236) —
`PopulateUpdatableLayout`/`PopulateUpdatableData` are never invoked — and
the boolean result of `swapData` is discarded, the function returning
`EXIT_SUCCESS` (0) unconditionally. -/
def Run (env : ShmEnv) (cfg : StorageConfig) (maxWait : Int) (datasetName : String)
    (w : World) : RunResult :=
  match PopulateStaticLayout cfg with
  | .error e => { world := w, outcome := .error e }
  | .ok static_layout =>
    match setupRegion env w with
    | .error e => { world := w, outcome := .error e }
    | .ok (w1, staticHandle) =>
      match PopulateStaticDataChecks cfg with
      | .error e => { world := w1, outcome := .error e }
      | .ok () =>
        match PopulateStaticLayout cfg with
        | .error e => { world := w1, outcome := .error e }
        | .ok updatable_layout =>
          match setupRegion env w1 with
          | .error e => { world := w1, outcome := .error e }
          | .ok (w2, updatableHandle) =>
            match PopulateStaticDataChecks cfg with
            | .error e => { world := w2, outcome := .error e }
            | .ok () =>
              let handles := [(datasetName ++ "/static", staticHandle.shm_key),
                              (datasetName ++ "/updatable", updatableHandle.shm_key)]
              let swap := swapData env.timedLockOk maxWait w2.register handles
              { world := { w2 with register := swap.register,
                                   events := w2.events ++ swap.events },
                outcome := .ok { exitCode := 0, swapSuccess := swap.success,
                                 static_layout := static_layout,
                                 updatable_layout := updatable_layout } }

end Storage

def runExitCode (r : RunResult) : Option Nat :=
  match r.outcome with
  | .ok o => some o.exitCode
  | .error _ => none

def runSwapSuccess (r : RunResult) : Option Bool :=
  match r.outcome with
  | .ok o => some o.swapSuccess
  | .error _ => none

def runUpdatableLayout (r : RunResult) : Option DataLayout :=
  match r.outcome with
  | .ok o => some o.updatable_layout
  | .error _ => none

/-- Retirement-protocol automaton for one key `k` over an event trace:
phase 0 = nothing seen, 1 = `Remove k` seen, 2 = `WaitForDetach` on `k`
completed, 3 = key released. A `WaitForDetach` before any `Remove`, or a
`ReleaseKey` before the detach wait, is a protocol violation (`none`).
`some 3` means the full retirement Remove -> WaitForDetach -> ReleaseKey
happened for `k`, in that order. -/
def retirePhase (k : Nat) : Nat → List Event → Option Nat
  | ph, [] => some ph
  | ph, e :: rest =>
    if e = Event.shmRemove k then retirePhase k (if ph = 0 then 1 else ph) rest
    else if e = Event.waitForDetach k then
      (if 1 ≤ ph then retirePhase k 2 rest else none)
    else if e = Event.releaseKey k then
      (if 2 ≤ ph then retirePhase k 3 rest else none)
    else retirePhase k ph rest

/-! ### Concrete fixtures used by witnesses and counterexamples -/

/-- The artifact suffixes `Storage::Run` requires for both regions (all
REQUIRED static files and all REQUIRED updatable files; no OPTIONAL
ones). -/
def reqFiles : List String :=
  [".osrm.icd", ".osrm.properties", ".osrm.nbg_nodes", ".osrm.ebg_nodes", ".osrm.tls",
   ".osrm.tld", ".osrm.maneuver_overrides", ".osrm.edges", ".osrm.names", ".osrm.ramIndex",
   ".osrm.datasource_names", ".osrm.geometry", ".osrm.turn_weight_penalties",
   ".osrm.turn_duration_penalties"]

/-- A small valid configuration: every required artifact exists; the
`edges` archive lists one static block, the `geometry` archive one
updatable block; all other archives are empty; no optional artifact. -/
def cfgDemo : StorageConfig :=
  { pathExists := fun s => reqFiles.contains s
    archive := fun s =>
      if s == ".osrm.edges" then
        [{ name := "/common/turn_data", size := 8, element_count := 2 }]
      else if s == ".osrm.geometry" then
        [{ name := "/common/segment_data", size := 12, element_count := 3 }]
      else []
    fileIndexPathLen := 10
    edgesChecksum := 5
    hsgrChecksum := 5
    mldgrChecksum := 5 }

/-- `cfgDemo` with an `hsgr` artifact present whose embedded connectivity
checksum (6) disagrees with the one read from `edges` (5). -/
def cfgBad : StorageConfig :=
  { cfgDemo with
    pathExists := fun s => s == ".osrm.hsgr" || reqFiles.contains s
    hsgrChecksum := 6 }

/-- `cfgDemo` with an `mldgr` artifact present whose embedded connectivity
checksum (7) disagrees with the one read from `edges` (5); no `hsgr`
artifact exists, so the abort comes from the `mldgr` check. -/
def cfgBadMldgr : StorageConfig :=
  { cfgDemo with
    pathExists := fun s => s == ".osrm.mldgr" || reqFiles.contains s
    mldgrChecksum := 7 }

/-- Fresh world: empty register, no stale segments, empty trace. -/
def w0 : World :=
  { register := { regions := [], used_keys := [] }, staleLive := [], removeAttempts := 0,
    events := [] }

/-- Environment where segment removal succeeds and the monitor's timed lock
is acquired in time. -/
def envT : ShmEnv := { removeOk := fun _ => true, timedLockOk := true }

/-- Environment where the monitor's timed lock times out. -/
def envF : ShmEnv := { removeOk := fun _ => true, timedLockOk := false }

/-- Environment where `SharedMemory::Remove` never succeeds. -/
def envStale : ShmEnv := { removeOk := fun _ => false, timedLockOk := true }

/-- A world with a stale shared-memory segment still live at key 0. -/
def wStale : World := { w0 with staleLive := [0] }

/-- A register in the state `swapData` sees on a first publish after both
`setupRegion` calls: no entries yet, keys 0 and 1 reserved for the two new
segments. -/
def regReserved : SharedRegionRegister := { regions := [], used_keys := [1, 0] }

/-- The handles map of a publish of dataset `alpha` (iteration order of the
`std::map`: "alpha/static" < "alpha/updatable"). -/
def handlesAlpha : List (String × Nat) := [("alpha/static", 0), ("alpha/updatable", 1)]


theorem hashCombine_lt (seed v : Nat) : hashCombine seed v < 2 ^ 64 :=
  Nat.mod_lt _ (by norm_num)

theorem HashKey_lt (k : CacheKey) : HashKey k < 2 ^ 64 :=
  hashCombine_lt _ _

theorem getDuration_addEdge_initial (k1 k2 : CacheKey) (d : Int) :
    (initialUnpackingCache.AddEdge k1 d).GetDuration k2 =
      if HashKey k2 = HashKey k1 then d else MAXIMAL_EDGE_DURATION := by
  by_cases h : HashKey k2 = HashKey k1
  · simp [UnpackingCache.GetDuration, UnpackingCache.AddEdge, initialUnpackingCache,
      LruCache.insert, LruCache.get, LruCache.hasKey, h]
  · simp [UnpackingCache.GetDuration, UnpackingCache.AddEdge, initialUnpackingCache,
      LruCache.insert, LruCache.get, LruCache.hasKey, h, Ne.symm h]

theorem isEdgeInCache_addEdge_initial (k1 k2 : CacheKey) (d : Int) :
    (initialUnpackingCache.AddEdge k1 d).IsEdgeInCache k2 =
      decide (HashKey k2 = HashKey k1) := by
  by_cases h : HashKey k2 = HashKey k1
  · simp [UnpackingCache.IsEdgeInCache, UnpackingCache.AddEdge, initialUnpackingCache,
      LruCache.insert, LruCache.hasKey, h]
  · simp [UnpackingCache.IsEdgeInCache, UnpackingCache.AddEdge, initialUnpackingCache,
      LruCache.insert, LruCache.hasKey, h, Ne.symm h]

/-- The hash maps the 104-bit key space into 64 bits, so two distinct
in-range keys with equal hashes exist (pigeonhole). -/
theorem hash_collision_in_range :
    ∃ k1 k2 : CacheKey, KeyInRange k1 ∧ KeyInRange k2 ∧ k1 ≠ k2 ∧ HashKey k1 = HashKey k2 := by
  classical
  let f : Fin (2 ^ 32) × Fin (2 ^ 32) × Fin (2 ^ 8) × Fin (2 ^ 32) → Fin (2 ^ 64) :=
    fun q => ⟨HashKey (q.1.val, q.2.1.val, q.2.2.1.val, q.2.2.2.val), HashKey_lt _⟩
  have hcard : Fintype.card (Fin (2 ^ 64)) <
      Fintype.card (Fin (2 ^ 32) × Fin (2 ^ 32) × Fin (2 ^ 8) × Fin (2 ^ 32)) := by
    simp only [Fintype.card_prod, Fintype.card_fin]
    norm_num
  obtain ⟨a, b, hne, heq⟩ := Fintype.exists_ne_map_eq_of_card_lt f hcard
  refine ⟨(a.1.val, a.2.1.val, a.2.2.1.val, a.2.2.2.val),
          (b.1.val, b.2.1.val, b.2.2.1.val, b.2.2.2.val),
          ⟨a.1.isLt, a.2.1.isLt, a.2.2.1.isLt, a.2.2.2.isLt⟩,
          ⟨b.1.isLt, b.2.1.isLt, b.2.2.1.isLt, b.2.2.2.isLt⟩, ?_, ?_⟩
  · intro h
    apply hne
    simp only [Prod.mk.injEq] at h
    obtain ⟨h1, h2, h3, h4⟩ := h
    exact Prod.ext (Fin.ext h1) (Prod.ext (Fin.ext h2) (Prod.ext (Fin.ext h3) (Fin.ext h4)))
  · simpa [f, Fin.mk.injEq] using heq

/-- Claim C9, amended: after `AddEdge((u,v,x,t), d)` and before any eviction,
`GetDuration((u,v,x,t))` returns `d`; and a key that was never added returns
the sentinel maximal duration provided its hash differs from the hash of the
cached key (the cache is keyed by the hash, so this proviso is necessary:
see the counterexample). In particular the same `(u,v,x)` with a different
version whose hash differs returns the sentinel. -/
theorem c9_cache_hit_and_versioned_miss (k1 : CacheKey) (d : Int) (k2 : CacheKey)
    (hne : HashKey k2 ≠ HashKey k1) :
    (initialUnpackingCache.AddEdge k1 d).GetDuration k1 = d ∧
    (initialUnpackingCache.AddEdge k1 d).GetDuration k2 = MAXIMAL_EDGE_DURATION := by
  constructor
  · rw [getDuration_addEdge_initial, if_pos rfl]
  · rw [getDuration_addEdge_initial, if_neg hne]

/-- Claim C9, witness: the spec scenario with `(u,v,x) = (1,2,3)`,
version 7 added with duration 42, version 8 never added. -/
theorem c9_witness :
    (initialUnpackingCache.AddEdge (1, 2, 3, 7) 42).GetDuration (1, 2, 3, 7) = 42 ∧
    (initialUnpackingCache.AddEdge (1, 2, 3, 7) 42).GetDuration (1, 2, 3, 8) =
      MAXIMAL_EDGE_DURATION :=
  c9_cache_hit_and_versioned_miss (1, 2, 3, 7) 42 (1, 2, 3, 8) (by decide)

/-- Claim C9, counterexample to the claim as stated: it is not true that
every key never added under the current cache contents gets the sentinel
back — two distinct in-range keys can share a hash (pigeonhole: 104 key
bits into a 64-bit `std::size_t`), and then the never-added key returns the
other key's duration. -/
theorem c9_counterexample :
    ¬ (∀ (k1 : CacheKey) (d : Int) (k2 : CacheKey), KeyInRange k1 → KeyInRange k2 →
        k2 ≠ k1 →
        (initialUnpackingCache.AddEdge k1 d).GetDuration k2 = MAXIMAL_EDGE_DURATION) := by
  intro hclaim
  obtain ⟨a, b, ha, hb, hne, heq⟩ := hash_collision_in_range
  have hd := hclaim a 0 b ha hb (Ne.symm hne)
  rw [getDuration_addEdge_initial, if_pos heq.symm] at hd
  exact absurd hd (by decide)

/-- Claim C10: the unpacking cache stores entries under the `std::size_t`
hash of the key, not the key itself: membership and lookup after
`AddEdge(k1, d)` depend only on whether the queried key's hash equals
`HashKey{}(k1)`; and there really are two distinct in-range keys with equal
hashes, which the cache therefore conflates. -/
theorem c10_cache_keyed_by_hash :
    (∀ (k1 : CacheKey) (d : Int) (k2 : CacheKey),
        (initialUnpackingCache.AddEdge k1 d).IsEdgeInCache k2 =
          decide (HashKey k2 = HashKey k1) ∧
        (initialUnpackingCache.AddEdge k1 d).GetDuration k2 =
          if HashKey k2 = HashKey k1 then d else MAXIMAL_EDGE_DURATION) ∧
    ∃ k1 k2 : CacheKey, KeyInRange k1 ∧ KeyInRange k2 ∧ k1 ≠ k2 ∧ HashKey k1 = HashKey k2 :=
  ⟨fun k1 d k2 => ⟨isEdgeInCache_addEdge_initial k1 k2 d, getDuration_addEdge_initial k1 k2 d⟩,
   hash_collision_in_range⟩

/-! ## Storage publisher (src/storage/storage.cpp)

The register, shared-memory segments and the interprocess monitor live in
headers outside the given sources; they are modelled from the spec. The
functions of `storage.cpp` (`readBlocks`, `setupRegion`, `swapData`,
`Storage::Run`, `Storage::PopulateStaticLayout`,
`Storage::PopulateUpdatableLayout`) are embedded from the source.
Side effects on the register and on shared memory are made explicit as a
`World` state plus an `Event` trace; whether the monitor's timed lock is
acquired in time, and whether a `SharedMemory::Remove` call succeeds, are
environment inputs. -/
/-! ### Claim theorems for the storage publisher -/

/-- Claim C1 (code bug, exhibited): on a valid publish the layout `Run`
hands to `setupRegion` for the updatable region — and later populates — is
the one produced by `PopulateStaticLayout` (the static artifact
enumeration, here the rtree path block plus the `edges` block), not the
enumeration of the updatable artifacts that `PopulateUpdatableLayout`
would produce (here the `geometry` block). -/
theorem c1_updatable_region_gets_static_layout :
    runUpdatableLayout (Storage.Run envT cfgDemo (-1) "alpha" w0) =
      some { blocks := [("/common/rtree/file_index_path",
                          { num_entries := 11, byte_size := 11 }),
                        ("/common/turn_data", { num_entries := 2, byte_size := 8 })] } ∧
    Storage.PopulateStaticLayout cfgDemo =
      .ok { blocks := [("/common/rtree/file_index_path",
                         { num_entries := 11, byte_size := 11 }),
                       ("/common/turn_data", { num_entries := 2, byte_size := 8 })] } ∧
    Storage.PopulateUpdatableLayout cfgDemo =
      .ok { blocks := [("/common/segment_data", { num_entries := 3, byte_size := 12 })] } ∧
    runUpdatableLayout (Storage.Run envT cfgDemo (-1) "alpha" w0) ≠
      some { blocks := [("/common/segment_data", { num_entries := 3, byte_size := 12 })] } := by
  decide

/-- Claim C2, counterexample to the claim as stated: after a timed-out
publish (`max_wait = 0`, lock not acquired) with keys 0 and 1 reserved for
the two new segments, the keys are NOT released back to the free pool —
`used_keys` still holds them and no `releaseKey` event occurs; only the
two `SharedMemory::Remove` calls happen. -/
theorem c2_counterexample :
    (swapData false 0 regReserved handlesAlpha).register.used_keys ≠ [] ∧
    swapData false 0 regReserved handlesAlpha =
      { register := regReserved, success := false,
        events := [Event.shmRemove 0, Event.shmRemove 1] } := by
  decide

/-- Claim C3 (code bug, exhibited): a publish whose monitor lock times out
(`max_wait = 0`, lock held elsewhere) fails — `swapData` returned
`false` — yet `Storage::Run` discards that result and returns
`EXIT_SUCCESS` (0). -/
theorem c3_exit_code_zero_despite_timeout :
    runExitCode (Storage.Run envF cfgDemo 0 "alpha" w0) = some 0 ∧
    runSwapSuccess (Storage.Run envF cfgDemo 0 "alpha" w0) = some false := by
  decide

/-- Claim C4, counterexample to the claim as stated: the first successful
publish of a fresh dataset name leaves both register entries with
`timestamp = 0` (the value `Register` creates them with, never incremented
by `swapData` on the registration branch), not `timestamp = 1`. -/
theorem c4_counterexample :
    (Storage.Run envT cfgDemo (-1) "alpha" w0).world.register.regions =
      [{ name := "alpha/static", shm_key := 0, timestamp := 0 },
       { name := "alpha/updatable", shm_key := 1, timestamp := 0 }] ∧
    ¬ (∀ e ∈ (Storage.Run envT cfgDemo (-1) "alpha" w0).world.register.regions,
        e.timestamp = 1) := by
  decide

/-- Claim C5, counterexample to the claim as stated: a publish aborted by a
connectivity-checksum mismatch (hsgr says 6, edges says 5) does throw
before any register entry is created or mutated, but the segment already
reserved for the static region is NOT removed and its key 0 is NOT
released: the trace ends at the allocation, with no `shmRemove` or
`releaseKey`, and key 0 stays in `used_keys`. -/
theorem c5_counterexample :
    (Storage.Run envT cfgBad (-1) "alpha" w0).outcome =
      .error .checksumMismatch ∧
    (Storage.Run envT cfgBad (-1) "alpha" w0).world.register.used_keys = [0] ∧
    (Storage.Run envT cfgBad (-1) "alpha" w0).world.events =
      [Event.reserveKey 0, Event.allocateSegment 0] := by
  decide

/-- Claim C6, counterexample to the claim as stated: the entry name
`"/a.metax"` does not end with `".meta"`, yet `readBlocks` excludes it
(the code tests `rfind(".meta") == npos`, i.e. substring containment), so
it contributes no block. -/
theorem c6_counterexample :
    readBlocks [{ name := "/a.metax", size := 4, element_count := 1 }] emptyLayout =
      emptyLayout ∧
    nameEndsWithMeta "/a.metax" = false := by
  decide

/-- Claim C7, counterexample to the claim as stated: with a stale segment
live at the freshly reserved key 0 and removal failing, `setupRegion`
calls `SharedMemory::Remove` exactly once (`removeAttempts = 1`, one
`shmRemove` event), does not retry, and proceeds to allocate while the
stale segment is still live (`staleLive` still `[0]`). -/
theorem c7_counterexample :
    setupRegion envStale wStale =
      .ok ({ register := { regions := [], used_keys := [0] }, staleLive := [0],
             removeAttempts := 1,
             events := [Event.reserveKey 0, Event.shmRemove 0, Event.allocateSegment 0] },
           { shm_key := 0 }) := by
  decide

/-- Claim C2, amended: when the monitor mutex is not acquired within
`max_wait` (with `max_wait >= 0`), the publish fails and
`SharedMemory::Remove` is invoked on every newly allocated segment, and
the register is not mutated at all — no entry is created or changed, and
(contrary to the original claim) the reserved keys are NOT released: the
register after the failed call is exactly the register before it. -/
theorem c2_timeout_removes_segments_keeps_keys (reg : SharedRegionRegister)
    (handles : List (String × Nat)) (maxWait : Int) (h : 0 ≤ maxWait) :
    swapData false maxWait reg handles =
      { register := reg, success := false,
        events := handles.map (fun p => Event.shmRemove p.2) } := by
  unfold swapData
  rw [if_pos ⟨h, rfl⟩]

/-- Claim C2, witness: the timed-out first publish of dataset `alpha`. -/
theorem c2_witness :
    swapData false 0 regReserved handlesAlpha =
      { register := regReserved, success := false,
        events := [Event.shmRemove 0, Event.shmRemove 1] } := by
  have h := c2_timeout_removes_segments_keeps_keys regReserved handlesAlpha 0 (by decide)
  exact h.trans (by decide)

theorem swapData_granted (tOk : Bool) (maxWait : Int) (reg : SharedRegionRegister)
    (handles : List (String × Nat)) (hne : ¬(0 ≤ maxWait ∧ tOk = false)) :
    swapData tOk maxWait reg handles =
      { register := (swapLoop reg handles).2.1.foldl SharedRegionRegister.ReleaseKey
          (swapLoop reg handles).1,
        success := true,
        events := (swapLoop reg handles).2.2 ++ [Event.notifyAll] ++
          ((swapLoop reg handles).2.1.map
            (fun k => [Event.shmRemove k, Event.waitForDetach k, Event.releaseKey k])).flatten } := by
  unfold swapData
  rw [if_neg hne]

theorem swapLoop_singleton_new (reg : SharedRegionRegister) (name : String) (key : Nat)
    (hf : reg.Find name = none) :
    swapLoop reg [(name, key)] =
      ((reg.Register name key).2, [], [Event.registerEntry name key]) := by
  simp [swapLoop, hf]

theorem swapLoop_singleton_update (reg : SharedRegionRegister) (name : String) (key : Nat)
    (rid : Nat) (e : SharedRegionEntry) (hf : reg.Find name = some rid)
    (hg : reg.regions[rid]? = some e) :
    swapLoop reg [(name, key)] =
      ({ reg with regions := reg.regions.set rid { e with shm_key := key, timestamp := e.timestamp + 1 } },
       [e.shm_key], [Event.updateEntry name key]) := by
  simp [swapLoop, hf, hg]

theorem releaseKey_regions (reg : SharedRegionRegister) (k : Nat) :
    (reg.ReleaseKey k).regions = reg.regions := rfl

/-- Claim C4, amended: `Register` creates the entry with `timestamp = 0`
and the registration branch of `swapData` does not increment it, so the
first successful publish of a name leaves its timestamp equal to 0 (not
1); each subsequent successful publish of the same name increments the
timestamp by exactly 1 (so it is strictly increasing across successive
successful publishes). -/
theorem c4_timestamp_versioning (tOk : Bool) (maxWait : Int) (reg : SharedRegionRegister)
    (name : String) (key : Nat) (hlock : maxWait < 0 ∨ tOk = true) :
    (swapData tOk maxWait reg [(name, key)]).success = true ∧
    (reg.Find name = none →
      (swapData tOk maxWait reg [(name, key)]).register.regions =
        reg.regions ++ [{ name := name, shm_key := key, timestamp := 0 }]) ∧
    (∀ rid e, reg.Find name = some rid → reg.regions[rid]? = some e →
      (swapData tOk maxWait reg [(name, key)]).register.regions =
        reg.regions.set rid { e with shm_key := key, timestamp := e.timestamp + 1 }) := by
  have hne : ¬(0 ≤ maxWait ∧ tOk = false) := by
    rcases hlock with h | h
    · exact fun hc => absurd hc.1 (by omega)
    · exact fun hc => by simp [h] at hc
  rw [swapData_granted tOk maxWait reg [(name, key)] hne]
  refine ⟨rfl, ?_, ?_⟩
  · intro hf
    rw [swapLoop_singleton_new reg name key hf]
    rfl
  · intro rid e hf hg
    rw [swapLoop_singleton_update reg name key rid e hf hg]
    rfl

/-- Claim C4, witness: a republish of name `a` (current entry key 3,
timestamp 5) with new key 7 bumps the timestamp to exactly 6. -/
theorem c4_witness :
    (swapData true (-1)
        { regions := [{ name := "a", shm_key := 3, timestamp := 5 }], used_keys := [3] }
        [("a", 7)]).register.regions =
      [{ name := "a", shm_key := 7, timestamp := 6 }] := by
  have h := (c4_timestamp_versioning true (-1)
      { regions := [{ name := "a", shm_key := 3, timestamp := 5 }], used_keys := [3] }
      "a" 7 (Or.inl (by decide))).2.2 0
      { name := "a", shm_key := 3, timestamp := 5 } (by decide) (by decide)
  exact h.trans (by decide)

/-- Claim C5, amended: a connectivity-checksum mismatch between the `hsgr`
OR the `mldgr` artifact and the `edges` artifact aborts the publish (with
the `ChecksumMismatch` exception) before any register entry is created or
mutated; however, contrary to the original claim, the segments already
reserved are NOT removed and their keys are NOT released — the reserved
key stays in the register's used pool, and the trace ends at the
allocation (the only removal that may precede it is the crash-recovery
removal of a stale segment in `setupRegion`, never a rollback of the new
segment). -/
theorem c5_checksum_mismatch_aborts_without_rollback (env : ShmEnv) (cfg : StorageConfig)
    (maxWait : Int) (dname : String) (w : World) (L : DataLayout) (key : Nat)
    (reg1 : SharedRegionRegister)
    (hlayout : Storage.PopulateStaticLayout cfg = .ok L)
    (hkey : w.register.ReserveKey = some (key, reg1))
    (hck : (cfg.pathExists ".osrm.hsgr" = true ∧ cfg.hsgrChecksum ≠ cfg.edgesChecksum) ∨
           (cfg.pathExists ".osrm.mldgr" = true ∧ cfg.mldgrChecksum ≠ cfg.edgesChecksum)) :
    (Storage.Run env cfg maxWait dname w).outcome = .error .checksumMismatch ∧
    (Storage.Run env cfg maxWait dname w).world.register.regions = w.register.regions ∧
    (Storage.Run env cfg maxWait dname w).world.register.used_keys =
      key :: w.register.used_keys ∧
    ∃ stale : List Event,
      (∀ e ∈ stale, e = Event.shmRemove key) ∧
      (Storage.Run env cfg maxWait dname w).world.events =
        w.events ++ [Event.reserveKey key] ++ stale ++ [Event.allocateSegment key] := by
  have hchecks : Storage.PopulateStaticDataChecks cfg = .error .checksumMismatch := by
    unfold Storage.PopulateStaticDataChecks
    rcases hck with ⟨h1, h2⟩ | ⟨h1, h2⟩
    · rw [if_pos (by simp [h1, h2])]
    · by_cases hh :
        (cfg.pathExists ".osrm.hsgr" && !(cfg.hsgrChecksum == cfg.edgesChecksum)) = true
      · rw [if_pos hh]
      · rw [if_neg hh, if_pos (by simp [h1, h2])]
  have hreg1 :
      reg1 = { regions := w.register.regions, used_keys := key :: w.register.used_keys } := by
    unfold SharedRegionRegister.ReserveKey at hkey
    rcases hfd : (List.range MAX_SHM_KEYS).find? (fun k => !(w.register.used_keys.contains k))
      with _ | k2
    · rw [hfd] at hkey
      exact absurd hkey (by simp)
    · rw [hfd] at hkey
      simp only [Option.some.injEq, Prod.mk.injEq] at hkey
      rw [← hkey.2, ← hkey.1]
  by_cases hc : key ∈ w.staleLive
  · have hsetup : setupRegion env w =
        .ok ({ register := reg1,
               staleLive := if env.removeOk w.removeAttempts = true then w.staleLive.erase key
                            else w.staleLive,
               removeAttempts := w.removeAttempts + 1,
               events := w.events ++ [Event.reserveKey key, Event.shmRemove key,
                 Event.allocateSegment key] },
             { shm_key := key }) := by
      unfold setupRegion
      rw [hkey]
      simp [hc]
    have hrun : Storage.Run env cfg maxWait dname w =
        { world := { register := reg1,
                     staleLive := if env.removeOk w.removeAttempts = true
                                  then w.staleLive.erase key else w.staleLive,
                     removeAttempts := w.removeAttempts + 1,
                     events := w.events ++ [Event.reserveKey key, Event.shmRemove key,
                       Event.allocateSegment key] },
          outcome := .error .checksumMismatch } := by
      simp only [Storage.Run, hlayout, hsetup, hchecks]
    rw [hrun, hreg1]
    refine ⟨rfl, rfl, rfl, [Event.shmRemove key], ?_, ?_⟩
    · intro e he
      simpa using he
    · simp
  · have hsetup : setupRegion env w =
        .ok ({ register := reg1, staleLive := w.staleLive, removeAttempts := w.removeAttempts,
               events := w.events ++ [Event.reserveKey key, Event.allocateSegment key] },
             { shm_key := key }) := by
      unfold setupRegion
      rw [hkey]
      simp [hc]
    have hrun : Storage.Run env cfg maxWait dname w =
        { world := { register := reg1, staleLive := w.staleLive,
                     removeAttempts := w.removeAttempts,
                     events := w.events ++ [Event.reserveKey key, Event.allocateSegment key] },
          outcome := .error .checksumMismatch } := by
      simp only [Storage.Run, hlayout, hsetup, hchecks]
    rw [hrun, hreg1]
    refine ⟨rfl, rfl, rfl, [], ?_, ?_⟩
    · intro e he
      simp at he
    · simp

/-- Claim C5, witness: the mldgr-mismatch publish of `cfgBadMldgr`
(mldgr checksum 7 vs edges checksum 5, no hsgr artifact) from a fresh
world: the abort comes from the `mldgr` branch of the check. -/
theorem c5_witness :
    (Storage.Run envT cfgBadMldgr (-1) "alpha" w0).outcome = .error .checksumMismatch ∧
    (Storage.Run envT cfgBadMldgr (-1) "alpha" w0).world.register.regions =
      w0.register.regions ∧
    (Storage.Run envT cfgBadMldgr (-1) "alpha" w0).world.register.used_keys =
      0 :: w0.register.used_keys ∧
    ∃ stale : List Event,
      (∀ e ∈ stale, e = Event.shmRemove 0) ∧
      (Storage.Run envT cfgBadMldgr (-1) "alpha" w0).world.events =
        w0.events ++ [Event.reserveKey 0] ++ stale ++ [Event.allocateSegment 0] :=
  c5_checksum_mismatch_aborts_without_rollback envT cfgBadMldgr (-1) "alpha" w0
    { blocks := [("/common/rtree/file_index_path", { num_entries := 11, byte_size := 11 }),
                 ("/common/turn_data", { num_entries := 2, byte_size := 8 })] }
    0 { regions := [], used_keys := [0] }
    (by decide) (by decide) (Or.inr ⟨by decide, by decide⟩)

theorem readBlocks_cons (e : ArtifactEntry) (es : List ArtifactEntry) (l : DataLayout) :
    readBlocks (e :: es) l =
      readBlocks es
        (if nameHasMetaSub e.name then l
         else l.SetBlock e.name { num_entries := e.element_count, byte_size := e.size }) := by
  by_cases h : nameHasMetaSub e.name <;> simp [readBlocks, h]

theorem setBlock_not_present (l : DataLayout) (name : String) (b : Block)
    (h : l.blocks.any (fun p => p.1 == name) = false) :
    l.SetBlock name b = { blocks := l.blocks ++ [(name, b)] } := by
  simp [DataLayout.SetBlock, h]

theorem readBlocks_blocks (entries : List ArtifactEntry) (l : DataLayout)
    (hdisj : ∀ e ∈ entries, l.blocks.any (fun p => p.1 == e.name) = false)
    (hd : (entries.map ArtifactEntry.name).Nodup) :
    readBlocks entries l =
      { blocks := l.blocks ++ (entries.filter (fun e => !nameHasMetaSub e.name)).map
          (fun e => (e.name, { num_entries := e.element_count, byte_size := e.size })) } := by
  induction entries generalizing l with
  | nil => simp [readBlocks]
  | cons e es ih =>
    rw [readBlocks_cons]
    simp only [List.map_cons, List.nodup_cons] at hd
    cases hm : nameHasMetaSub e.name with
    | true =>
      rw [if_pos rfl]
      rw [ih l (fun e2 he2 => hdisj e2 (List.mem_cons_of_mem e he2)) hd.2]
      simp [List.filter_cons, hm]
    | false =>
      have hany : l.blocks.any (fun p => p.1 == e.name) = false :=
        hdisj e (List.mem_cons_self e es)
      rw [if_neg Bool.false_ne_true]
      rw [setBlock_not_present l e.name _ hany]
      rw [ih _ ?_ hd.2]
      · simp [List.filter_cons, hm]
      · intro e2 he2
        have h1 := hdisj e2 (List.mem_cons_of_mem e he2)
        have hne : e.name ≠ e2.name := by
          intro hEq
          exact hd.1 (hEq ▸ List.mem_map_of_mem ArtifactEntry.name he2)
        simp [List.any_append, h1, hne]

/-- Claim C6, amended: an archive entry is excluded from the layout's
blocks if and only if its name CONTAINS the substring `".meta"` (the code
tests `rfind(".meta") == npos`, so e.g. `"/a.metax"` is also excluded, not
only names ending in `".meta"`); every entry whose name does not contain
`".meta"` contributes a block with that entry's name, its element count
read from the archive, and its byte size, assuming the archive's entry
names are distinct. -/
theorem c6_meta_substring_exclusion (entries : List ArtifactEntry)
    (hd : (entries.map ArtifactEntry.name).Nodup) :
    readBlocks entries emptyLayout =
      { blocks := (entries.filter (fun e => !nameHasMetaSub e.name)).map
          (fun e => (e.name, { num_entries := e.element_count, byte_size := e.size })) } := by
  have h := readBlocks_blocks entries emptyLayout (fun e _ => rfl) hd
  simpa [emptyLayout] using h

/-- Claim C6, witness: an archive listing a data entry and its `.meta`
sidecar yields exactly the data block. -/
theorem c6_witness :
    readBlocks [{ name := "/common/names", size := 40, element_count := 10 },
                { name := "/common/names.meta", size := 8, element_count := 1 }] emptyLayout =
      { blocks := [("/common/names", { num_entries := 10, byte_size := 40 })] } := by
  have h := c6_meta_substring_exclusion
    [{ name := "/common/names", size := 40, element_count := 10 },
     { name := "/common/names.meta", size := 8, element_count := 1 }] (by decide)
  exact h.trans (by decide)

/-- Claim C7, amended: when a stale shared-memory segment is still live at
the freshly reserved key, `setupRegion` invokes `SharedMemory::Remove` on
it exactly once (and not at all otherwise); it does NOT retry the removal
until it succeeds, and if the single removal fails the stale segment is
still live at the moment the new segment is allocated. -/
theorem c7_single_remove_attempt (env : ShmEnv) (w : World) (key : Nat)
    (reg1 : SharedRegionRegister) (hkey : w.register.ReserveKey = some (key, reg1)) :
    ∃ (w2 : World) (tail : List Event),
      setupRegion env w = .ok (w2, { shm_key := key }) ∧
      w2.events = w.events ++ tail ∧
      tail.countP (fun e => decide (e = Event.shmRemove key)) =
        (if key ∈ w.staleLive then 1 else 0) ∧
      (env.removeOk w.removeAttempts = false → w2.staleLive = w.staleLive) := by
  by_cases hc : key ∈ w.staleLive
  · have hsetup : setupRegion env w =
        .ok ({ register := reg1,
               staleLive := if env.removeOk w.removeAttempts = true then w.staleLive.erase key
                            else w.staleLive,
               removeAttempts := w.removeAttempts + 1,
               events := w.events ++ [Event.reserveKey key, Event.shmRemove key,
                 Event.allocateSegment key] },
             { shm_key := key }) := by
      unfold setupRegion
      rw [hkey]
      simp [hc]
    refine ⟨_, [Event.reserveKey key, Event.shmRemove key, Event.allocateSegment key],
      hsetup, rfl, ?_, ?_⟩
    · simp [hc, List.countP_cons]
    · intro hrm
      simp [hrm]
  · have hsetup : setupRegion env w =
        .ok ({ register := reg1, staleLive := w.staleLive, removeAttempts := w.removeAttempts,
               events := w.events ++ [Event.reserveKey key, Event.allocateSegment key] },
             { shm_key := key }) := by
      unfold setupRegion
      rw [hkey]
      simp [hc]
    refine ⟨_, [Event.reserveKey key, Event.allocateSegment key], hsetup, rfl, ?_, ?_⟩
    · simp [hc, List.countP_cons]
    · intro hrm
      rfl

/-- Claim C7, witness: the stale-segment scenario at key 0 with a removal
environment that never succeeds. -/
theorem c7_witness :
    ∃ (w2 : World) (tail : List Event),
      setupRegion envStale wStale = .ok (w2, { shm_key := 0 }) ∧
      w2.events = wStale.events ++ tail ∧
      tail.countP (fun e => decide (e = Event.shmRemove 0)) =
        (if 0 ∈ wStale.staleLive then 1 else 0) ∧
      (envStale.removeOk wStale.removeAttempts = false → w2.staleLive = wStale.staleLive) :=
  c7_single_remove_attempt envStale wStale 0
    { regions := [], used_keys := [0] } (by decide)

theorem retirePhase_append (k ph : Nat) (xs ys : List Event) :
    retirePhase k ph (xs ++ ys) =
      (retirePhase k ph xs).bind (fun p => retirePhase k p ys) := by
  induction xs generalizing ph with
  | nil => simp [retirePhase]
  | cons e rest ih =>
    simp only [List.cons_append, retirePhase]
    by_cases h1 : e = Event.shmRemove k
    · simp [h1, ih]
    · by_cases h2 : e = Event.waitForDetach k
      · by_cases hp : 1 ≤ ph
        · simp [h1, h2, hp, ih]
        · simp [h1, h2, hp]
      · by_cases h3 : e = Event.releaseKey k
        · by_cases hp : 2 ≤ ph
          · simp [h1, h2, h3, hp, ih]
          · simp [h1, h2, h3, hp]
        · simp [h1, h2, h3, ih]

theorem retirePhase_neutral (k ph : Nat) (evs : List Event)
    (h : ∀ e ∈ evs, e ≠ Event.shmRemove k ∧ e ≠ Event.waitForDetach k ∧
      e ≠ Event.releaseKey k) :
    retirePhase k ph evs = some ph := by
  induction evs with
  | nil => simp [retirePhase]
  | cons e rest ih =>
    obtain ⟨h1, h2, h3⟩ := h e (List.mem_cons_self e rest)
    simp only [retirePhase, h1, h2, h3, if_false]
    exact ih (fun e2 he2 => h e2 (List.mem_cons_of_mem e he2))

theorem swapLoop_events_shape (reg : SharedRegionRegister) (handles : List (String × Nat)) :
    ∀ e ∈ (swapLoop reg handles).2.2,
      (∃ n x, e = Event.registerEntry n x) ∨ (∃ n x, e = Event.updateEntry n x) := by
  induction handles generalizing reg with
  | nil =>
    intro e he
    simp [swapLoop] at he
  | cons p rest ih =>
    obtain ⟨name, key⟩ := p
    intro e he
    rcases hf : reg.Find name with _ | rid
    · rw [show swapLoop reg ((name, key) :: rest) =
          ((swapLoop (reg.Register name key).2 rest).1,
           (swapLoop (reg.Register name key).2 rest).2.1,
           Event.registerEntry name key :: (swapLoop (reg.Register name key).2 rest).2.2)
          from by simp [swapLoop, hf]] at he
      rcases List.mem_cons.mp he with h | h
      · exact Or.inl ⟨name, key, h⟩
      · exact ih _ e h
    · rcases hg : reg.regions[rid]? with _ | entry
      · rw [show swapLoop reg ((name, key) :: rest) = swapLoop reg rest
            from by simp [swapLoop, hf, hg]] at he
        exact ih _ e he
      · have hevents : (swapLoop reg ((name, key) :: rest)).2.2 =
            Event.updateEntry name key ::
              (swapLoop { reg with regions := reg.regions.set rid { entry with shm_key := key, timestamp := entry.timestamp + 1 } } rest).2.2 := by
          simp [swapLoop, hf, hg]
        rw [hevents] at he
        rcases List.mem_cons.mp he with h | h
        · exact Or.inr ⟨name, key, h⟩
        · exact ih _ e h

theorem retirePhase_swapLoop (k ph : Nat) (reg : SharedRegionRegister)
    (handles : List (String × Nat)) :
    retirePhase k ph (swapLoop reg handles).2.2 = some ph := by
  apply retirePhase_neutral
  intro e he
  rcases swapLoop_events_shape reg handles e he with ⟨n, x, rfl⟩ | ⟨n, x, rfl⟩ <;>
    exact ⟨by simp, by simp, by simp⟩

theorem retirePhase_retire_from_three (k : Nat) (olds : List Nat) :
    retirePhase k 3
      ((olds.map (fun j => [Event.shmRemove j, Event.waitForDetach j, Event.releaseKey j])).flatten)
      = some 3 := by
  induction olds with
  | nil => simp [retirePhase]
  | cons j rest ih =>
    simp only [List.map_cons, List.flatten_cons]
    rw [retirePhase_append]
    by_cases hj : j = k
    · subst hj
      simp [retirePhase, ih]
    · have hj1 : Event.shmRemove j ≠ Event.shmRemove k := by simp [hj]
      have hj2 : Event.waitForDetach j ≠ Event.waitForDetach k := by simp [hj]
      have hj3 : Event.releaseKey j ≠ Event.releaseKey k := by simp [hj]
      simp [retirePhase, hj1, hj2, hj3, ih]

theorem retirePhase_retire_mem (k : Nat) (olds : List Nat) (hm : k ∈ olds) :
    retirePhase k 0
      ((olds.map (fun j => [Event.shmRemove j, Event.waitForDetach j, Event.releaseKey j])).flatten)
      = some 3 := by
  induction olds with
  | nil => cases hm
  | cons j rest ih =>
    simp only [List.map_cons, List.flatten_cons]
    rw [retirePhase_append]
    by_cases hj : j = k
    · subst hj
      simp [retirePhase, retirePhase_retire_from_three]
    · have hj1 : Event.shmRemove j ≠ Event.shmRemove k := by simp [hj]
      have hj2 : Event.waitForDetach j ≠ Event.waitForDetach k := by simp [hj]
      have hj3 : Event.releaseKey j ≠ Event.releaseKey k := by simp [hj]
      have hk : k ∈ rest := by
        rcases List.mem_cons.mp hm with h | h
        · exact absurd h.symm hj
        · exact h
      simp [retirePhase, hj1, hj2, hj3, ih hk]

/-- Claim C8: for every old key retired by a successful swap, the trace of
`swapData` realizes the full retirement protocol in order — first
`SharedMemory::Remove`, then the detach wait, and only then `ReleaseKey`;
the automaton `retirePhase` rejects (with `none`) any trace in which a
release precedes the detach wait or a wait precedes the removal, so
reaching state 3 proves the order. -/
theorem c8_retire_order (tOk : Bool) (maxWait : Int) (reg : SharedRegionRegister)
    (handles : List (String × Nat)) (k : Nat)
    (hsucc : (swapData tOk maxWait reg handles).success = true)
    (hk : k ∈ (swapLoop reg handles).2.1) :
    retirePhase k 0 (swapData tOk maxWait reg handles).events = some 3 := by
  have hne : ¬(0 ≤ maxWait ∧ tOk = false) := by
    intro hc
    rw [show swapData tOk maxWait reg handles =
        { register := reg, success := false,
          events := handles.map (fun p => Event.shmRemove p.2) }
        from by unfold swapData; rw [if_pos hc]] at hsucc
    simp at hsucc
  rw [swapData_granted tOk maxWait reg handles hne]
  rw [retirePhase_append, retirePhase_append, retirePhase_swapLoop]
  have hnotify : retirePhase k 0 [Event.notifyAll] = some 0 := by
    simp [retirePhase]
  simp only [Option.some_bind, hnotify]
  exact retirePhase_retire_mem k _ hk

/-- Claim C8, witness: a successful republish of `alpha/static` (old key 3
retired, new key 5). -/
theorem c8_witness :
    retirePhase 3 0
      (swapData true 0
        { regions := [{ name := "alpha/static", shm_key := 3, timestamp := 0 }],
          used_keys := [3] }
        [("alpha/static", 5)]).events = some 3 :=
  c8_retire_order true 0
    { regions := [{ name := "alpha/static", shm_key := 3, timestamp := 0 }],
      used_keys := [3] }
    [("alpha/static", 5)] 3 (by decide) (by decide)

end Osrm
